import Mathlib

/-
  Verification of the process-monitor core (src/core/process_monitor.py)
  against its natural-language specification.

  Shallow embedding conventions:
  - Python float attribute values are modelled as rationals (Rat); the code
    performs no arithmetic on them, only Python truthiness tests (x or d),
    and a rational is falsy exactly when it equals zero, matching Python
    for all non-NaN floats.
  - The host capability (psutil) is modelled as explicit input data: an
    enumeration yields a list of per-process results, each either a record
    of raw attributes (any of which may be unavailable, i.e. None) or a
    per-process failure (NoSuchProcess, AccessDenied, ZombieProcess).
  - Exceptions are modelled with Except; catching an exception corresponds
    to matching on the error constructor.
-/

namespace ProcessSpy

/- Python truthiness defaulting: the source writes (value or default),
   which substitutes the default when the value is None or falsy. -/

def pyOrStr : Option String → String → String
  | none, d => d
  | some s, d => if s = "" then d else s

def pyOrRat : Option Rat → Rat → Rat
  | none, d => d
  | some x, d => if x = 0 then d else x

def pyOrList : Option (List String) → List String → List String
  | none, d => d
  | some l, d => if l = [] then d else l

/- Data model: the ProcessInfo dataclass. -/

structure ProcessInfo where
  pid : Int
  name : String
  cpu_percent : Rat
  memory_percent : Rat
  status : String
  create_time : Rat
  cmdline : List String
  deriving DecidableEq

/- Raw attributes as reported by the host for one process: every field
   except the pid may be unavailable (None). -/

structure RawAttrs where
  pid : Int
  name : Option String
  cpu_percent : Option Rat
  memory_percent : Option Rat
  status : Option String
  create_time : Option Rat
  cmdline : Option (List String)
  deriving DecidableEq

/- Per-process failures raised while reading a process during iteration;
   these are exactly the exception types caught by get_processes. -/

inductive IterErr where
  | noSuchProcess
  | accessDenied
  | zombieProcess
  deriving DecidableEq

/- One element yielded by the host iteration: either readable raw
   attributes or a per-process failure. -/

inductive IterItem where
  | ok (a : RawAttrs)
  | gone (e : IterErr)
  deriving DecidableEq

def isGone : IterItem → Bool
  | .ok _ => false
  | .gone _ => true

/- Construction of one ProcessInfo from raw attributes, with the
   truthiness defaulting of the source (info[...] or default). -/

def mkProcessInfo (a : RawAttrs) : ProcessInfo :=
  { pid := a.pid
    name := pyOrStr a.name "Unknown"
    cpu_percent := pyOrRat a.cpu_percent 0
    memory_percent := pyOrRat a.memory_percent 0
    status := pyOrStr a.status "unknown"
    create_time := pyOrRat a.create_time 0
    cmdline := pyOrList a.cmdline [] }

/- get_processes: iterate over the host items, skip (continue) every item
   whose attribute read fails with one of the caught exceptions, append a
   ProcessInfo for every readable item. -/

def get_processes (items : List IterItem) : List ProcessInfo :=
  items.filterMap fun it =>
    match it with
    | .ok a => some (mkProcessInfo a)
    | .gone _ => none

/- The readable raw attribute records among the host items, in order. -/

def okAttrs (items : List IterItem) : List RawAttrs :=
  items.filterMap fun it =>
    match it with
    | .ok a => some a
    | .gone _ => none

def pids (ps : List ProcessInfo) : List Int := ps.map ProcessInfo.pid

def rawEx : RawAttrs :=
  { pid := 42
    name := some "proc"
    cpu_percent := some 1
    memory_percent := some 2
    status := some "running"
    create_time := some 3
    cmdline := some ["a"] }

/- The cache: a Python dict from pid to ProcessInfo, modelled as an
   association list with Python dict semantics: updating an existing key
   replaces its value in place, a fresh key is appended. -/

abbrev PDict := List (Int × ProcessInfo)

def dictKeys (d : PDict) : List Int := d.map Prod.fst

def dictInsert (d : PDict) (k : Int) (v : ProcessInfo) : PDict :=
  if k ∈ dictKeys d then d.map (fun kv => if kv.1 = k then (k, v) else kv)
  else d ++ [(k, v)]

/- The dict comprehension building pid to record from a snapshot. -/

def dictOfList (ps : List ProcessInfo) : PDict :=
  ps.foldl (fun d p => dictInsert d p.pid p) []

/- Change events emitted (logged) by one detection step. -/

structure ChangeEvents where
  appeared : List (Int × String)
  disappeared : List (Int × String)
  deriving DecidableEq

/- detect_changes: builds current_pids from the snapshot, emits one
   appeared event per pid of the snapshot absent from the cache, one
   disappeared event per cached pid absent from the snapshot (with the
   cached, last-known record), then replaces the cache wholesale. -/

def detect_changes (cache : PDict) (current : List ProcessInfo) :
    ChangeEvents × PDict :=
  let current_pids := dictOfList current
  let appeared :=
    (current_pids.filter (fun kv => decide (¬ kv.1 ∈ dictKeys cache))).map
      (fun kv => (kv.1, kv.2.name))
  let disappeared :=
    (cache.filter (fun kv => decide (¬ kv.1 ∈ dictKeys current_pids))).map
      (fun kv => (kv.1, kv.2.name))
  ({ appeared := appeared, disappeared := disappeared }, current_pids)

def procA : ProcessInfo :=
  { pid := 1, name := "A", cpu_percent := 0, memory_percent := 0,
    status := "running", create_time := 0, cmdline := [] }

def procB : ProcessInfo :=
  { pid := 2, name := "B", cpu_percent := 0, memory_percent := 0,
    status := "running", create_time := 0, cmdline := [] }

def procC : ProcessInfo :=
  { pid := 3, name := "C", cpu_percent := 0, memory_percent := 0,
    status := "running", create_time := 0, cmdline := [] }

def cacheEx : PDict := [(1, procA), (2, procB)]

/- Best-effort termination. The host capability is modelled as the
   outcomes of the four psutil calls performed by kill_process, in order:
   the Process constructor lookup, terminate, wait with the 5 second
   timeout, and the name read done while logging success. Each may fail
   with one of the exception types that the source catches. -/

inductive TermErr where
  | noSuchProcess
  | accessDenied
  | timeoutExpired
  deriving DecidableEq

structure TerminateHost where
  lookup : Except TermErr Unit
  terminate : Except TermErr Unit
  wait : Except TermErr Unit
  name : Except TermErr String

def isOkB : Except TermErr String → Bool
  | .ok _ => true
  | .error _ => false

/- kill_process: the try block runs the four host calls in order; any
   TermErr exception is caught, logged, and turned into a false return;
   true is returned only after the wait confirmed the exit. -/

def kill_process (h : TerminateHost) : Bool :=
  match h.lookup with
  | .error _ => false
  | .ok _ =>
    match h.terminate with
    | .error _ => false
    | .ok _ =>
      match h.wait with
      | .error _ => false
      | .ok _ =>
        match h.name with
        | .error _ => false
        | .ok _ => true

/- The persisted snapshot document. The JSON values producible by the
   serializer: strings, Python ints, Python floats (modelled as Rat),
   arrays and objects with ordered keys. -/

inductive Json where
  | str : String → Json
  | int : Int → Json
  | num : Rat → Json
  | arr : List Json → Json
  | obj : List (String × Json) → Json

/- The to_dict method of the ProcessInfo dataclass, as serialized by
   json.dump: dict insertion order is the literal order of the source. -/

def ProcessInfo.to_dict (p : ProcessInfo) : List (String × Json) :=
  [("pid", Json.int p.pid), ("name", Json.str p.name),
   ("cpu_percent", Json.num p.cpu_percent),
   ("memory_percent", Json.num p.memory_percent),
   ("status", Json.str p.status), ("create_time", Json.num p.create_time),
   ("cmdline", Json.arr (p.cmdline.map Json.str))]

/- save_snapshot: one get_processes call paired with the current ISO
   timestamp (an input here), serialized as a two-field document. -/

def save_snapshot (items : List IterItem) (timestamp : String) : Json :=
  Json.obj
    [("timestamp", Json.str timestamp),
     ("processes",
       Json.arr ((get_processes items).map (fun p => Json.obj p.to_dict)))]

def topKeys : Json → List String
  | .obj kvs => kvs.map Prod.fst
  | _ => []

def jsonLookup (kvs : List (String × Json)) (k : String) : Option Json :=
  (kvs.find? (fun kv => kv.1 == k)).map Prod.snd

def docTimestamp : Json → Option Json
  | .obj kvs => jsonLookup kvs "timestamp"
  | _ => none

def docProcesses : Json → Option Json
  | .obj kvs => jsonLookup kvs "processes"
  | _ => none

def processesEntryKeys (j : Json) : List (List String) :=
  match docProcesses j with
  | some (.arr es) => es.map topKeys
  | _ => []

/- The key list the serializer actually writes for one process entry. -/

def srcEntryKeys : List String :=
  ["pid", "name", "cpu_percent", "memory_percent", "status", "create_time",
   "cmdline"]

/- Written from the words of the specification (section 6 wire format),
   for comparison with the source serializer: the field list the spec
   claims for one process entry. -/

def specEntryKeys : List String :=
  ["id", "name", "cpu_percent", "memory_percent", "status", "create_time",
   "cmdline"]

/- Subscriber dispatch. A handler receives the snapshot and either returns
   or fails with a message; the dispatch loop of the monitor catches every
   handler failure, logs it, and continues with the next handler. The
   trace records, in execution order, each invoked handler by registration
   index together with its outcome. -/

abbrev Snapshot := List ProcessInfo

abbrev Handler := Snapshot → Except String Unit

def notifyGo (s : Snapshot) : Nat → List Handler → List (Nat × Except String Unit)
  | _, [] => []
  | j, h :: rest => (j, h s) :: notifyGo s (j + 1) rest

def notify_all (hs : List Handler) (s : Snapshot) :
    List (Nat × Except String Unit) :=
  notifyGo s 0 hs

def runTrace (hs : List Handler) (snaps : List Snapshot) :
    List (Nat × Except String Unit) :=
  (snaps.map (notify_all hs)).flatten

/- The polling loop. One iteration first checks the stop event; when it is
   set the loop exits. Otherwise the try block runs the cycle: either the
   cycle completes (enumeration items processed, cache replaced by the
   diff step) or it fails with an unexpected error, which is caught and
   logged, leaving the cache as it was; in both cases the loop sleeps and
   continues. -/

inductive CycleOutcome where
  | ok (items : List IterItem)
  | fail (msg : String)

def loopStep (stopSet : Bool) (cache : PDict) (out : CycleOutcome) :
    Option PDict :=
  if stopSet then none
  else
    match out with
    | .ok items => some (detect_changes cache (get_processes items)).2
    | .fail _ => some cache

def runLoopCount (cache : PDict) : List (Bool × CycleOutcome) → Nat
  | [] => 0
  | (stopSet, out) :: rest =>
    match loopStep stopSet cache out with
    | none => 0
    | some c => runLoopCount c rest + 1

/- Lifecycle of the monitor: the monitoring flag, the stop event, and the
   number of live polling contexts. Stopping signals the background
   context, which exits cooperatively at its next stop-event check, and
   joins it. -/

structure MonState where
  monitoring : Bool
  stopEventSet : Bool
  activeThreads : Nat
  deriving DecidableEq

def initMonState : MonState :=
  { monitoring := false, stopEventSet := false, activeThreads := 0 }

def start_monitoring (s : MonState) : MonState :=
  if s.monitoring then s
  else { monitoring := true, stopEventSet := false,
         activeThreads := s.activeThreads + 1 }

def stop_monitoring (s : MonState) : MonState :=
  if s.monitoring then
    { monitoring := false, stopEventSet := true, activeThreads := 0 }
  else s

def threadInv (s : MonState) : Prop :=
  s.activeThreads = if s.monitoring then 1 else 0

theorem get_processes_eq_map (items : List IterItem) :
    get_processes items = (okAttrs items).map mkProcessInfo := by
  induction items with
  | nil => rfl
  | cons it rest ih =>
    cases it <;> simp [get_processes, okAttrs, List.filterMap_cons] at ih ⊢ <;>
      exact ih

/-- C4: a host item on which the attribute read fails is silently omitted
from the enumeration result; the readable items are all returned, in
order, and an enumeration consisting only of failing items yields the
empty snapshot. The call is total (returns a list, never propagates a
per-process failure). -/
theorem C4_enumeration_gaps (items : List IterItem) (e : IterErr) :
    get_processes items = (okAttrs items).map mkProcessInfo
    ∧ get_processes (IterItem.gone e :: items) = get_processes items
    ∧ get_processes (items.filter isGone) = [] := by
  refine ⟨get_processes_eq_map items, rfl, ?_⟩
  induction items with
  | nil => rfl
  | cons it rest ih =>
    cases it <;> simpa [isGone, get_processes, List.filterMap_cons] using ih

/-- C8: enumeration preserves distinctness of process identifiers: when
the host items carry pairwise distinct pids (as the operating system
guarantees for one listing), the snapshot returned by get_processes has
pairwise distinct pids. -/
theorem C8_snapshot_pids_distinct (items : List IterItem)
    (h : ((okAttrs items).map RawAttrs.pid).Nodup) :
    (pids (get_processes items)).Nodup := by
  have hmap : pids (get_processes items) = (okAttrs items).map RawAttrs.pid := by
    rw [pids, get_processes_eq_map, List.map_map]
    rfl
  rw [hmap]
  exact h

/-- Witness for C8 at a concrete host listing with distinct pids. -/
theorem C8_snapshot_pids_distinct_witness :
    ((okAttrs [IterItem.ok rawEx, IterItem.gone IterErr.accessDenied]).map
        RawAttrs.pid).Nodup
    ∧ (pids (get_processes
        [IterItem.ok rawEx, IterItem.gone IterErr.accessDenied])).Nodup :=
  ⟨by decide,
   C8_snapshot_pids_distinct [IterItem.ok rawEx, IterItem.gone IterErr.accessDenied]
     (by decide)⟩

/-- C9: a process all of whose host-reported attributes are unavailable is
returned with the defaults: name Unknown, status unknown, empty cmdline,
and zero cpu, memory and create time. -/
theorem C9_defaults (p : Int) :
    mkProcessInfo
        { pid := p, name := none, cpu_percent := none, memory_percent := none,
          status := none, create_time := none, cmdline := none }
      = { pid := p, name := "Unknown", cpu_percent := 0, memory_percent := 0,
          status := "unknown", create_time := 0, cmdline := [] } := rfl

/-- C10: defaulting is by truthiness, not by absence: a present but empty
name is replaced by Unknown exactly as an absent one, so the two are
indistinguishable in the produced record; the same holds for an empty
status and an empty cmdline. -/
theorem C10_falsy_defaulting (a : RawAttrs) :
    mkProcessInfo { a with name := some "" } = mkProcessInfo { a with name := none }
    ∧ (mkProcessInfo { a with name := some "" }).name = "Unknown"
    ∧ mkProcessInfo { a with status := some "" }
        = mkProcessInfo { a with status := none }
    ∧ mkProcessInfo { a with cmdline := some [] }
        = mkProcessInfo { a with cmdline := none } := by
  refine ⟨?_, ?_, ?_, ?_⟩ <;> simp [mkProcessInfo, pyOrStr, pyOrList]

theorem dictKeys_dictInsert (d : PDict) (k : Int) (v : ProcessInfo) :
    dictKeys (dictInsert d k v)
      = if k ∈ dictKeys d then dictKeys d else dictKeys d ++ [k] := by
  by_cases h : k ∈ dictKeys d
  · rw [dictInsert, if_pos h, if_pos h]
    simp only [dictKeys, List.map_map]
    refine List.map_congr_left ?_
    intro kv _
    by_cases hk : kv.1 = k <;> simp [Function.comp, hk]
  · rw [dictInsert, if_neg h, if_neg h]
    simp [dictKeys]

theorem mem_dictKeys_dictInsert (d : PDict) (k i : Int) (v : ProcessInfo) :
    i ∈ dictKeys (dictInsert d k v) ↔ i ∈ dictKeys d ∨ i = k := by
  rw [dictKeys_dictInsert]
  by_cases h : k ∈ dictKeys d
  · simp only [if_pos h]
    constructor
    · exact Or.inl
    · rintro (hi | rfl)
      · exact hi
      · exact h
  · simp [if_neg h]

theorem nodup_dictKeys_dictInsert (d : PDict) (k : Int) (v : ProcessInfo)
    (h : (dictKeys d).Nodup) : (dictKeys (dictInsert d k v)).Nodup := by
  rw [dictKeys_dictInsert]
  by_cases hk : k ∈ dictKeys d
  · simpa [if_pos hk] using h
  · simpa [if_neg hk, List.nodup_append] using ⟨h, hk⟩

theorem mem_dictKeys_foldl (ps : List ProcessInfo) (d : PDict) (i : Int) :
    i ∈ dictKeys (ps.foldl (fun d p => dictInsert d p.pid p) d)
      ↔ i ∈ dictKeys d ∨ i ∈ pids ps := by
  induction ps generalizing d with
  | nil => simp [pids]
  | cons p rest ih =>
    simp only [List.foldl_cons, ih, mem_dictKeys_dictInsert, pids, List.map_cons,
      List.mem_cons]
    tauto

theorem mem_dictKeys_dictOfList (ps : List ProcessInfo) (i : Int) :
    i ∈ dictKeys (dictOfList ps) ↔ i ∈ pids ps := by
  rw [dictOfList, mem_dictKeys_foldl]
  simp [dictKeys]

theorem nodup_dictKeys_foldl (ps : List ProcessInfo) (d : PDict)
    (h : (dictKeys d).Nodup) :
    (dictKeys (ps.foldl (fun d p => dictInsert d p.pid p) d)).Nodup := by
  induction ps generalizing d with
  | nil => exact h
  | cons p rest ih =>
    exact ih _ (nodup_dictKeys_dictInsert _ _ _ h)

theorem nodup_dictKeys_dictOfList (ps : List ProcessInfo) :
    (dictKeys (dictOfList ps)).Nodup :=
  nodup_dictKeys_foldl ps [] (by simp [dictKeys])

theorem map_fst_filter_key (d : PDict) (p : Int → Bool) :
    ((d.filter (fun kv => p kv.1)).map (fun kv => (kv.1, kv.2.name))).map Prod.fst
      = (dictKeys d).filter p := by
  induction d with
  | nil => rfl
  | cons kv rest ih =>
    by_cases h : p kv.1 <;> simp [dictKeys, List.filter_cons, h] at ih ⊢ <;>
      simpa [dictKeys] using ih

theorem count_filter_nodup (l : List Int) (p : Int → Bool) (i : Int)
    (h : l.Nodup) :
    (l.filter p).count i = if i ∈ l ∧ p i then 1 else 0 := by
  by_cases hm : i ∈ l ∧ p i
  · rw [if_pos hm]
    exact List.count_eq_one_of_mem (h.filter p) (List.mem_filter.mpr ⟨hm.1, hm.2⟩)
  · rw [if_neg hm, List.count_eq_zero]
    intro hc
    exact hm ⟨(List.mem_filter.mp hc).1, (List.mem_filter.mp hc).2⟩

/-- C1: one change-detection step emits exactly one appeared event per
identifier of the snapshot absent from the cache and exactly one
disappeared event per cached identifier absent from the snapshot; no other
identifier produces an event; disappeared events carry the name of the
last-known cached record; and the new cache is the mapping built from the
snapshot, replacing the old cache wholesale. -/
theorem C1_change_detection (C : PDict) (S : List ProcessInfo) (i : Int)
    (hC : (dictKeys C).Nodup) :
    ((detect_changes C S).1.appeared.map Prod.fst).count i
        = (if i ∈ pids S ∧ ¬ i ∈ dictKeys C then 1 else 0)
    ∧ ((detect_changes C S).1.disappeared.map Prod.fst).count i
        = (if i ∈ dictKeys C ∧ ¬ i ∈ pids S then 1 else 0)
    ∧ (detect_changes C S).1.disappeared
        = (C.filter (fun kv => decide (¬ kv.1 ∈ pids S))).map
            (fun kv => (kv.1, kv.2.name))
    ∧ (detect_changes C S).2 = dictOfList S := by
  have happ : (detect_changes C S).1.appeared
      = ((dictOfList S).filter (fun kv => decide (¬ kv.1 ∈ dictKeys C))).map
          (fun kv => (kv.1, kv.2.name)) := rfl
  have hdis : (detect_changes C S).1.disappeared
      = (C.filter (fun kv => decide (¬ kv.1 ∈ dictKeys (dictOfList S)))).map
          (fun kv => (kv.1, kv.2.name)) := rfl
  refine ⟨?_, ?_, ?_, rfl⟩
  · rw [happ, map_fst_filter_key (dictOfList S) (fun k => decide (¬ k ∈ dictKeys C)),
      count_filter_nodup _ _ _ (nodup_dictKeys_dictOfList S)]
    by_cases h1 : i ∈ pids S <;> by_cases h2 : i ∈ dictKeys C <;>
      simp [mem_dictKeys_dictOfList, h1, h2]
  · rw [hdis,
      map_fst_filter_key C (fun k => decide (¬ k ∈ dictKeys (dictOfList S))),
      count_filter_nodup _ _ _ hC]
    by_cases h1 : i ∈ dictKeys C <;> by_cases h2 : i ∈ pids S <;>
      simp [mem_dictKeys_dictOfList, h1, h2]
  · rw [hdis]
    refine congrArg (List.map _) (List.filter_congr ?_)
    intro kv _
    simp [mem_dictKeys_dictOfList]

/-- Witness for C1 at the example of the specification: prior cache with
pids 1 and 2, new snapshot with pids 2 and 3, checked at identifier 3. -/
theorem C1_change_detection_witness :
    (dictKeys cacheEx).Nodup
    ∧ (((detect_changes cacheEx [procB, procC]).1.appeared.map Prod.fst).count 3
          = (if (3 : Int) ∈ pids [procB, procC] ∧ ¬ (3 : Int) ∈ dictKeys cacheEx
             then 1 else 0)
        ∧ ((detect_changes cacheEx [procB, procC]).1.disappeared.map Prod.fst).count 3
          = (if (3 : Int) ∈ dictKeys cacheEx ∧ ¬ (3 : Int) ∈ pids [procB, procC]
             then 1 else 0)
        ∧ (detect_changes cacheEx [procB, procC]).1.disappeared
          = (cacheEx.filter (fun kv => decide (¬ kv.1 ∈ pids [procB, procC]))).map
              (fun kv => (kv.1, kv.2.name))
        ∧ (detect_changes cacheEx [procB, procC]).2 = dictOfList [procB, procC]) :=
  ⟨by decide, C1_change_detection cacheEx [procB, procC] 3 (by decide)⟩

/-- C2: kill_process returns true exactly when every host step succeeded,
in particular only when the bounded wait confirmed the process gone; on a
not-found, access-denied or timeout failure at any step it returns false.
It is a total boolean function: every caught host exception becomes a
false return, none propagates. -/
theorem C2_terminate_no_raise (h : TerminateHost) :
    kill_process h = true ↔
      (h.lookup = Except.ok () ∧ h.terminate = Except.ok ()
        ∧ h.wait = Except.ok () ∧ isOkB h.name = true) := by
  constructor
  · intro hk
    rw [kill_process] at hk
    cases hl : h.lookup with
    | error e => rw [hl] at hk; exact absurd hk (by simp)
    | ok u =>
      rw [hl] at hk
      cases ht : h.terminate with
      | error e => rw [ht] at hk; exact absurd hk (by simp)
      | ok u2 =>
        rw [ht] at hk
        cases hw : h.wait with
        | error e => rw [hw] at hk; exact absurd hk (by simp)
        | ok u3 =>
          rw [hw] at hk
          cases hn : h.name with
          | error e => rw [hn] at hk; exact absurd hk (by simp)
          | ok n => exact ⟨rfl, rfl, rfl, rfl⟩
  · rintro ⟨hl, ht, hw, hn⟩
    rw [kill_process, hl, ht, hw]
    cases hname : h.name with
    | error e => rw [hname] at hn; exact absurd hn (by simp [isOkB])
    | ok n => rfl

/-- C3 counterexample: at a concrete host listing with one readable
process, the persisted entry keys are the source keys starting with pid,
which differ from the field list that the claim states: no entry carries a
field named id. -/
theorem C3_wire_format_counterexample :
    processesEntryKeys (save_snapshot [IterItem.ok rawEx] "2024-01-01T00:00:00")
        = [srcEntryKeys]
    ∧ srcEntryKeys ≠ specEntryKeys
    ∧ ¬ "id" ∈ srcEntryKeys := by
  refine ⟨by decide, by decide, by decide⟩

/-- C3 amended: the persisted document has exactly the two top-level
fields timestamp (a string) and processes, an array with one entry per
record of the single enumeration call made by save, in order; each entry
carries exactly the fields pid (integer), name (string), cpu_percent
(float), memory_percent (float), status (string), create_time (float) and
cmdline (array of strings). -/
theorem C3_amended_wire_format (items : List IterItem) (ts : String)
    (p : ProcessInfo) :
    topKeys (save_snapshot items ts) = ["timestamp", "processes"]
    ∧ docTimestamp (save_snapshot items ts) = some (Json.str ts)
    ∧ docProcesses (save_snapshot items ts)
        = some (Json.arr ((get_processes items).map (fun q => Json.obj q.to_dict)))
    ∧ processesEntryKeys (save_snapshot items ts)
        = (get_processes items).map (fun _ => srcEntryKeys)
    ∧ p.to_dict
        = [("pid", Json.int p.pid), ("name", Json.str p.name),
           ("cpu_percent", Json.num p.cpu_percent),
           ("memory_percent", Json.num p.memory_percent),
           ("status", Json.str p.status), ("create_time", Json.num p.create_time),
           ("cmdline", Json.arr (p.cmdline.map Json.str))] := by
  have hdoc : docProcesses (save_snapshot items ts)
      = some (Json.arr ((get_processes items).map (fun q => Json.obj q.to_dict))) := by
    simp [docProcesses, save_snapshot, jsonLookup, List.find?]
  refine ⟨rfl, ?_, hdoc, ?_, rfl⟩
  · simp [docTimestamp, save_snapshot, jsonLookup, List.find?]
  · rw [processesEntryKeys, hdoc]
    show ((get_processes items).map (fun q => Json.obj q.to_dict)).map topKeys
        = (get_processes items).map (fun _ => srcEntryKeys)
    rw [List.map_map]
    exact List.map_congr_left (fun q _ => rfl)

theorem notifyGo_eq (s : Snapshot) (j : Nat) (hs : List Handler) :
    notifyGo s j hs = (List.enumFrom j hs).map (fun p => (p.1, p.2 s)) := by
  induction hs generalizing j with
  | nil => rfl
  | cons h rest ih => simp [notifyGo, List.enumFrom, ih]

theorem count_nodup_nat (l : List Nat) (j : Nat) (h : l.Nodup) :
    l.count j = if j ∈ l then 1 else 0 := by
  by_cases hm : j ∈ l
  · rw [if_pos hm]
    exact List.count_eq_one_of_mem h hm
  · rw [if_neg hm, List.count_eq_zero]
    exact hm

theorem map_fst_notify_all (hs : List Handler) (s : Snapshot) :
    (notify_all hs s).map Prod.fst = List.range hs.length := by
  rw [notify_all, notifyGo_eq, List.map_map]
  have : (List.enumFrom 0 hs).map
      (Prod.fst ∘ fun p => (p.1, p.2 s)) = (List.enumFrom 0 hs).map Prod.fst := by
    exact List.map_congr_left (fun a _ => rfl)
  rw [this, ← List.enum, List.enum_map_fst]

theorem countP_notify_all (hs : List Handler) (s : Snapshot) (j : Nat) :
    (notify_all hs s).countP (fun e => e.1 == j)
      = if j < hs.length then 1 else 0 := by
  have h1 : (notify_all hs s).countP (fun e => e.1 == j)
      = ((notify_all hs s).map Prod.fst).count j := by
    rw [List.count, List.countP_map]
    rfl
  rw [h1, map_fst_notify_all,
    count_nodup_nat _ _ (List.nodup_range _)]
  simp [List.mem_range]

theorem countP_runTrace (hs : List Handler) (snaps : List Snapshot) (j : Nat) :
    (runTrace hs snaps).countP (fun e => e.1 == j)
      = if j < hs.length then snaps.length else 0 := by
  induction snaps with
  | nil => by_cases h : j < hs.length <;> simp [runTrace, h]
  | cons s rest ih =>
    rw [runTrace, List.map_cons, List.flatten_cons, List.countP_append]
    rw [runTrace] at ih
    rw [ih, countP_notify_all]
    by_cases h : j < hs.length
    · simp only [if_pos h, List.length_cons]
      omega
    · simp [if_neg h, h]

/-- C5: dispatch invokes the handlers in registration order, each exactly
once per cycle and each with the dispatched snapshot, independently of the
outcomes of the other handlers; over any run of cycles a registered
handler is invoked once per cycle, so over five cycles exactly five
times, and a handler registered after an always-failing one is still
invoked with the same snapshot. -/
theorem C5_subscriber_isolation (hs : List Handler) (s : Snapshot)
    (snaps : List Snapshot) (j : Nat) (h2 : Handler) :
    notify_all hs s = hs.enum.map (fun p => (p.1, p.2 s))
    ∧ (notify_all hs s).map Prod.fst = List.range hs.length
    ∧ (runTrace hs snaps).countP (fun e => e.1 == j)
        = (if j < hs.length then snaps.length else 0)
    ∧ notify_all [fun _ => Except.error "boom", h2] s
        = [(0, Except.error "boom"), (1, h2 s)] :=
  ⟨notifyGo_eq s 0 hs, map_fst_notify_all hs s, countP_runTrace hs snaps j, rfl⟩

/-- C6: a cycle failure is caught: the iteration still continues (the step
yields a next state), a failed cycle leaves the cache unchanged and
retries, the loop exits exactly when the stop event is set, and a run in
which the stop event is never set executes every scheduled cycle however
many of them fail. -/
theorem C6_loop_resilience (cache : PDict) (out : CycleOutcome) (msg : String)
    (script : List CycleOutcome) :
    (loopStep false cache out).isSome = true
    ∧ loopStep false cache (CycleOutcome.fail msg) = some cache
    ∧ loopStep true cache out = none
    ∧ runLoopCount cache (script.map (fun o => (false, o))) = script.length := by
  refine ⟨?_, rfl, rfl, ?_⟩
  · cases out <;> rfl
  · induction script generalizing cache with
    | nil => rfl
    | cons o rest ih =>
      cases o <;> simp [runLoopCount, loopStep, ih]

/-- C7: on every state satisfying the thread invariant, start is
idempotent and leaves exactly one active polling context, stop is
idempotent and a second stop changes nothing, both preserve the
invariant, and from the initial stopped state start transitions to
Running and stop transitions back to Stopped. -/
theorem C7_lifecycle_idempotent (s : MonState) (hinv : threadInv s) :
    start_monitoring (start_monitoring s) = start_monitoring s
    ∧ (start_monitoring s).monitoring = true
    ∧ (start_monitoring s).activeThreads = 1
    ∧ threadInv (start_monitoring s)
    ∧ stop_monitoring (stop_monitoring s) = stop_monitoring s
    ∧ (stop_monitoring s).monitoring = false
    ∧ (stop_monitoring s).activeThreads = 0
    ∧ threadInv (stop_monitoring s)
    ∧ start_monitoring initMonState
        = { monitoring := true, stopEventSet := false, activeThreads := 1 }
    ∧ stop_monitoring (start_monitoring initMonState)
        = { monitoring := false, stopEventSet := true, activeThreads := 0 } := by
  rw [threadInv] at hinv
  by_cases h : s.monitoring = true <;>
    simp [start_monitoring, stop_monitoring, threadInv, initMonState, h] at hinv ⊢ <;>
    simp [hinv]

/-- Witness for C7 at the initial state. -/
theorem C7_lifecycle_idempotent_witness :
    threadInv initMonState
    ∧ (start_monitoring (start_monitoring initMonState)
          = start_monitoring initMonState
        ∧ (start_monitoring initMonState).monitoring = true
        ∧ (start_monitoring initMonState).activeThreads = 1
        ∧ threadInv (start_monitoring initMonState)
        ∧ stop_monitoring (stop_monitoring initMonState)
            = stop_monitoring initMonState
        ∧ (stop_monitoring initMonState).monitoring = false
        ∧ (stop_monitoring initMonState).activeThreads = 0
        ∧ threadInv (stop_monitoring initMonState)
        ∧ start_monitoring initMonState
            = { monitoring := true, stopEventSet := false, activeThreads := 1 }
        ∧ stop_monitoring (start_monitoring initMonState)
            = { monitoring := false, stopEventSet := true, activeThreads := 0 }) :=
  ⟨rfl, C7_lifecycle_idempotent initMonState rfl⟩

end ProcessSpy
